import Mathlib

/-!
# Verification of the tick-to-Renko aggregation pipeline

Shallow embedding of the aggregation core of the `renko-chart` repository
(`src/intractive_app.py`, `src/main.py`, `src/unnamed/part_000`), together
with theorems settling the specification claims about it.

Conventions of the embedding:
* prices and time differences are embedded as rationals (`ℚ`); the Python
  code computes with IEEE floats, and every claim here is about exact
  arithmetic relationships, so `ℚ` is the faithful exact-value reading;
* tick timestamps are embedded as natural numbers of seconds;
* pandas `Series.std()` (sample standard deviation, `ddof=1`) produces an
  irrational number in general, so the estimator is embedded through the
  *square* of the value the code computes (`brickSizeSq` below); the
  comparison `abs(delta) >= brick_size` performed by the builder is embedded
  as `delta^2 >= brickSizeSq`, which is equivalent because both `|delta|`
  and `brick_size = sqrt(var)/2` are nonnegative (lemma
  `renkoWalk_eq_renkoWalkSq` relates the two forms);
* fallible stages return `Except String`, the error strings being the
  messages of the `raise ValueError(...)` statements of the source.
-/

namespace RenkoChart

/-! ## Renko builder (fallback path of `process_tick_data`)

Embeds `src/intractive_app.py` lines 1340–1359:

```python
brick_size = ohcl_df['close'].std() * 0.5
renko_bricks = []
last_brick_price = ohcl_df['close'].iloc[0]
for idx, row in ohcl_df.iterrows():
    price_change = row['close'] - last_brick_price
    if abs(price_change) >= brick_size:
        renko_bricks.append(row['close'])
        last_brick_price = row['close']
```

The loop runs over *all* bars (the first included) and starts from the
first bar's close; it emits at most one brick per bar, whose value is the
bar's raw close.  Only the sequence of close prices matters to the loop, so
the builder is embedded as a function of the close-price list.  The
parallel `renko_dates` list is not modelled: it carries no information the
claims mention.
-/

/-- One step of the fallback Renko loop: state is
`(last_brick_price, reversed list of bricks emitted so far)`. -/
def renkoStep (brickSize : ℚ) (st : ℚ × List ℚ) (c : ℚ) : ℚ × List ℚ :=
  if |c - st.1| ≥ brickSize then (c, c :: st.2) else st

/-- The fallback Renko brick builder of `process_tick_data`
(`src/intractive_app.py` lines 1341–1353), parametrised by the brick size:
`last_brick_price` starts at the first close, the loop visits every bar,
and a bar whose close moved at least `brickSize` from `last_brick_price`
appends its close to `renko_bricks`. -/
def renkoWalk (brickSize : ℚ) (closes : List ℚ) : List ℚ :=
  match closes with
  | [] => []
  | c0 :: _ => ((closes.foldl (renkoStep brickSize) (c0, [])).2).reverse

/-- The same loop written as direct structural recursion on the remaining
bars; `renkoWalk_eq_walkAux` proves it equal to the `foldl` form. -/
def walkAux (brickSize : ℚ) (last : ℚ) : List ℚ → List ℚ
  | [] => []
  | c :: rest =>
    if |c - last| ≥ brickSize then c :: walkAux brickSize c rest
    else walkAux brickSize last rest

/-- Modelled from the spec: the walk that claim C1 describes.  For each bar
after initialisation it runs the stated `while |delta| >= brick_size` loop,
each iteration emitting one brick at the threshold-quantized level
`last_brick_value + sign(delta) * brick_size` and updating
`last_brick_value` to that level.  The `while` loop is embedded with
explicit fuel; `specEmitFrom` supplies fuel sufficient for the loop to run
to completion whenever `brick_size > 0`. -/
def specWhileLoop (brickSize : ℚ) : ℕ → ℚ → ℚ → ℚ × List ℚ
  | 0, last, _ => (last, [])
  | fuel + 1, last, close =>
    let delta := close - last
    if |delta| ≥ brickSize then
      let v := last + (if 0 < delta then brickSize else -brickSize)
      let r := specWhileLoop brickSize fuel v close
      (r.1, v :: r.2)
    else (last, [])

/-- Modelled from the spec (claim C1): fuel bound for one bar — at most
`⌈|delta| / brick_size⌉` bricks can be emitted from one close-to-close gap
when `brick_size > 0`. -/
def specFuel (brickSize delta : ℚ) : ℕ :=
  if 0 < brickSize then (⌈|delta| / brickSize⌉).toNat + 1 else 1

/-- Modelled from the spec (claim C1): process the subsequent bars of the
series, threading `last_brick_value` through the per-bar `while` loop. -/
def specWalkFrom (brickSize : ℚ) (last : ℚ) : List ℚ → List ℚ
  | [] => []
  | c :: rest =>
    let r := specWhileLoop brickSize (specFuel brickSize (c - last)) last c
    r.2 ++ specWalkFrom brickSize r.1 rest

/-- Modelled from the spec (claim C1): the full specified walk —
`last_brick_value` initialised to the close of the first bar, no brick
emitted for the first bar, then the per-bar while loop over the subsequent
bars. -/
def renkoSpecWalk (brickSize : ℚ) (closes : List ℚ) : List ℚ :=
  match closes with
  | [] => []
  | c0 :: rest => specWalkFrom brickSize c0 rest

/-! ## Brick-size estimator (statistical fallback)

`src/intractive_app.py` line 1340: `brick_size = ohcl_df['close'].std() * 0.5`.
`pandas.Series.std()` is the *sample* standard deviation with `ddof=1`:
`sqrt( Σ (x - mean)² / (n - 1) )`.  The square root of a rational is
irrational in general, so the estimator is embedded through its square:
`brickSizeSq xs = (std(xs) * 0.5)² = sampleVar xs / 4`.  Two nonnegative
reals are equal iff their squares are, so every claim about the value of
the estimator is settled by the corresponding claim about `brickSizeSq`.
For `n ≤ 1` pandas yields `NaN` (division by `ddof` zero); in the
embedding the rational division by zero yields `0`, and every theorem that
depends on this point carries the hypothesis `2 ≤ n`. -/

/-- Arithmetic mean of a list of closes (`Σ x / n`). -/
def mean (xs : List ℚ) : ℚ := xs.sum / (xs.length : ℚ)

/-- Sum of squared deviations from the mean (`Σ (x - mean)²`). -/
def sumSqDev (xs : List ℚ) : ℚ := (xs.map (fun x => (x - mean xs) ^ 2)).sum

/-- Sample variance with `ddof = 1`, the quantity under the square root in
`pandas.Series.std()`. -/
def sampleVar (xs : List ℚ) : ℚ := sumSqDev xs / ((xs.length : ℚ) - 1)

/-- Square of the fallback brick size computed at
`src/intractive_app.py` line 1340: `(std(closes) * 0.5)² = sampleVar / 4`. -/
def brickSizeSq (xs : List ℚ) : ℚ := sampleVar xs / 4

/-- Modelled from the spec (claim C2): population variance (`ddof = 0`),
the quantity under the square root of the spec's "population standard
deviation of bar closes". -/
def popVar (xs : List ℚ) : ℚ := sumSqDev xs / (xs.length : ℚ)

/-- Modelled from the spec (claim C2): square of the brick size the spec
prescribes, `(0.5 × population std)² = popVar / 4`. -/
def specBrickSizeSq (xs : List ℚ) : ℚ := popVar xs / 4

/-! ## Renko walk with the estimated brick size

The code compares `abs(price_change) >= brick_size` where
`brick_size = std * 0.5` is a nonnegative square root.  In the squared
embedding the comparison becomes `price_change² ≥ brickSizeSq`, which is
equivalent (`renkoWalk_eq_renkoWalkSq` below proves the two walk forms
agree for every nonnegative brick size). -/

/-- One step of the fallback Renko loop with the comparison squared. -/
def renkoStepSq (sSq : ℚ) (st : ℚ × List ℚ) (c : ℚ) : ℚ × List ℚ :=
  if (c - st.1) ^ 2 ≥ sSq then (c, c :: st.2) else st

/-- The fallback Renko builder with the comparison squared: emits a brick
at the bar close whenever `(close - last_brick_price)² ≥ sSq`. -/
def renkoWalkSq (sSq : ℚ) (closes : List ℚ) : List ℚ :=
  match closes with
  | [] => []
  | c0 :: _ => ((closes.foldl (renkoStepSq sSq) (c0, [])).2).reverse

/-- The composed estimator-plus-builder stage of the fallback path
(`src/intractive_app.py` lines 1340–1353): brick size estimated from the
close series by `std * 0.5`, then the single-pass loop over the same
closes. -/
def fallbackRenko (closes : List ℚ) : List ℚ :=
  renkoWalkSq (brickSizeSq closes) closes

/-! ## Brick OHLC synthesis

`src/intractive_app.py` lines 1370–1383 (with 10% padding):

```python
renko_df['open'] = renko_df['renko_bricks'].shift(1)
renko_df.loc[renko_df.index[0], 'open'] = bricks[0] - size[0]
renko_df['high'] = renko_df[['open','renko_bricks']].max(axis=1) + renko_df['renko_size'] * 0.1
renko_df['low']  = renko_df[['open','renko_bricks']].min(axis=1) - renko_df['renko_size'] * 0.1
renko_df['close'] = renko_df['renko_bricks']
```

`src/main.py` lines 110–123 perform the same `open`/`close` computation but
set `high`/`low` to the bare max/min, with no padding term.  A brick row is
embedded as a structure; the input is the list of
`(renko_bricks, renko_size)` pairs. -/

/-- One synthesized Renko brick row.  `value` is the `renko_bricks` entry,
`size` the `renko_size` entry; `openP` embeds the `open` column (`open` is
a Lean keyword). -/
structure RBrick where
  value : ℚ
  size : ℚ
  openP : ℚ
  high : ℚ
  low : ℚ
  close : ℚ
  deriving DecidableEq, Repr

/-- Rows of the `intractive_app.py` synthesis after the first: each row's
`open` is the previous row's `renko_bricks` value (the `shift(1)`),
`high`/`low` are the max/min of `open` and `renko_bricks` padded by
`renko_size * 0.1`, `close` is `renko_bricks`. -/
def synthFrom (prev : ℚ) : List (ℚ × ℚ) → List RBrick
  | [] => []
  | (v, s) :: rest =>
    { value := v, size := s, openP := prev,
      high := max prev v + s * (1 / 10),
      low := min prev v - s * (1 / 10),
      close := v } :: synthFrom v rest

/-- The brick-OHLC synthesis of `process_tick_data`
(`src/intractive_app.py` lines 1370–1383): first row's `open` is
`renko_bricks - renko_size`, every later row's `open` is the previous
row's `renko_bricks`. -/
def interactiveSynthRenko (rows : List (ℚ × ℚ)) : List RBrick :=
  match rows with
  | [] => []
  | (v, s) :: _ => synthFrom (v - s) rows

/-- Rows of the `main.py` synthesis after the first: identical to
`synthFrom` except that `high`/`low` are the bare max/min of `open` and
`renko_bricks`, with no padding (`src/main.py` lines 121–122). -/
def mainSynthFrom (prev : ℚ) : List (ℚ × ℚ) → List RBrick
  | [] => []
  | (v, s) :: rest =>
    { value := v, size := s, openP := prev,
      high := max prev v,
      low := min prev v,
      close := v } :: mainSynthFrom v rest

/-- The brick-OHLC synthesis of `generate_renko_data`
(`src/main.py` lines 110–123). -/
def mainSynthRenko (rows : List (ℚ × ℚ)) : List RBrick :=
  match rows with
  | [] => []
  | (v, s) :: _ => mainSynthFrom (v - s) rows

/-! ## OHLC resampler

`src/intractive_app.py` lines 1282–1287:

```python
ohcl_df = tick_df.resample('1min', closed='right', label='right').agg(
    \x7b'price': 'ohlc', 'size': 'sum'\x7d
).dropna()
```

Right-closed one-minute buckets: the bucket labelled `e` (a multiple of 60
seconds) covers the half-open interval `(e - 60, e]`, so a tick at exactly
a minute boundary belongs to the bucket ending there.  Buckets with no
ticks are dropped by `dropna()`.  Tick timestamps are embedded as seconds
(`ℕ`); the tick list is assumed sorted ascending by time, the order the
pipeline's data carries (the spec documents the pre-sorted-input
assumption). -/

/-- One tick: timestamp in seconds, trade price, trade size. -/
structure Tick where
  time : ℕ
  price : ℚ
  size : ℕ
  deriving DecidableEq, Repr

/-- One resampled OHLC bar, labelled by its bucket end time in seconds. -/
structure Bar where
  label : ℕ
  openP : ℚ
  high : ℚ
  low : ℚ
  close : ℚ
  volume : ℕ
  deriving DecidableEq, Repr

/-- End (label) of the right-closed 1-minute bucket containing second `t`:
the least multiple of 60 that is `≥ t`. -/
def bucketEnd (t : ℕ) : ℕ := 60 * ((t + 59) / 60)

/-- Accumulating aggregation over the sorted tick list: `e` is the current
bucket label and `o h l c vol` the running open/high/low/close/volume of
that bucket; a tick falling into a new bucket flushes the current bar. -/
def resampleGo (e : ℕ) (o h l c : ℚ) (vol : ℕ) : List Tick → List Bar
  | [] => [⟨e, o, h, l, c, vol⟩]
  | t :: ts =>
    if bucketEnd t.time = e then
      resampleGo e o (max h t.price) (min l t.price) t.price (vol + t.size) ts
    else
      ⟨e, o, h, l, c, vol⟩ ::
        resampleGo (bucketEnd t.time) t.price t.price t.price t.price t.size ts

/-- The 1-minute OHLC resampling of `process_tick_data`
(`src/intractive_app.py` lines 1282–1287) on a time-sorted tick list:
per bucket, `open` is the first tick's price, `high`/`low` the max/min,
`close` the last tick's price and `volume` the sum of sizes; empty buckets
produce no bar. -/
def resample1min : List Tick → List Bar
  | [] => []
  | t :: ts => resampleGo (bucketEnd t.time) t.price t.price t.price t.price t.size ts

/-! ## Column resolution and the pipeline

`src/intractive_app.py` lines 1243–1290 resolve the `price` and
`timestamp` columns of the loaded DataFrame, fabricate artificial
timestamps when none exist, default the `size` column to 1, resample, and
raise `ValueError` when nothing remains.  A loaded DataFrame is embedded
as a `TickTable`: its column names, its index name, and its `price`,
timestamp and `size` data. -/

/-- A loaded tick DataFrame: column names, index name, and the data of the
price column, of the timestamp-like column (when one exists) and of the
size column (when one exists).  In a real DataFrame every column has the
same number of rows; theorems that need it carry
`sizes.length = prices.length` as a well-formedness hypothesis. -/
structure TickTable where
  cols : List String
  indexName : Option String
  prices : List ℚ
  tsVals : List ℕ
  sizes : List ℕ

/-- Index names that trigger `reset_index`
(`src/intractive_app.py` line 1245). -/
def tsIndexNames : List String := ["timestamp", "date", "time"]

/-- Alternative column names mapped onto `timestamp`
(`column_mapping`, line 1253). -/
def tsAltNames : List String := ["date", "time", "datetime", "ts"]

/-- Alternative column names mapped onto `price`
(`column_mapping`, line 1252). -/
def priceAltNames : List String := ["close", "last", "trade_price", "px_last"]

/-- Column list after the `reset_index` step (line 1245–1246): when
`timestamp` is not a column and the index is named `timestamp`, `date` or
`time`, the index becomes a column of that name. -/
def colsAfterReset (tb : TickTable) : List String :=
  if (!tb.cols.contains "timestamp" &&
      (match tb.indexName with
       | some nm => tsIndexNames.contains nm
       | none => false)) then
    (tb.indexName.getD "") :: tb.cols
  else tb.cols

/-- The `column_mapping` step for one required column (lines 1256–1261):
when `target` is missing and some alternative is present, the alternative's
data is copied under the name `target`. -/
def addMapped (cols : List String) (target : String) (alts : List String) :
    List String :=
  if cols.contains target then cols
  else if alts.any (fun a => cols.contains a) then target :: cols
  else cols

/-- Column names after the whole resolution
(`required_columns = ['price', 'timestamp']`, lines 1244–1261). -/
def resolvedCols (tb : TickTable) : List String :=
  addMapped (addMapped (colsAfterReset tb) "price" priceAltNames)
    "timestamp" tsAltNames

/-- `pd.date_range(start='2025-01-01', ...)` start, in seconds since the
Unix epoch: 2025-01-01 00:00:00 UTC. -/
def artificialStart : ℕ := 1735689600

/-- The timestamp values the pipeline indexes the ticks by: the values of
the resolved timestamp column when one exists, else the artificial
timestamps of line 1274 — `len(tick_df)` instants spaced 1 second apart
from 2025-01-01 (`freq='1S'`). -/
def tickTimes (tb : TickTable) : List ℕ :=
  if (resolvedCols tb).contains "timestamp" then tb.tsVals
  else (List.range tb.prices.length).map (fun i => artificialStart + i)

/-- The size values: the `size` column when present, else the default
`tick_df['size'] = 1` of line 1278. -/
def tickSizes (tb : TickTable) : List ℕ :=
  if (resolvedCols tb).contains "size" then tb.sizes
  else List.replicate tb.prices.length 1

/-- Assembled tick list of the table after column resolution. -/
def tableTicks (tb : TickTable) : List Tick :=
  List.zipWith (fun t ps => Tick.mk t ps.1 ps.2)
    (tickTimes tb) (tb.prices.zip (tickSizes tb))

/-- Column resolution outcome (lines 1243–1278): fails with the
`ValueError` message of line 1265 when no price column can be resolved,
else yields the tick list. -/
def resolveTicks (tb : TickTable) : Except String (List Tick) :=
  if ¬ (resolvedCols tb).contains "price" then
    .error "Price column not found. Expected columns: price, close, last, or trade_price"
  else .ok (tableTicks tb)

/-- The pipeline through the resampling stage (lines 1243–1290): column
resolution, 1-minute resampling, and the emptiness check of line 1289,
which raises `ValueError("No data remained after resampling to OHLC")`. -/
def resampleStage (tb : TickTable) : Except String (List Bar) :=
  match resolveTicks tb with
  | .error e => .error e
  | .ok ticks =>
    let bars := resample1min ticks
    if bars.length = 0 then .error "No data remained after resampling to OHLC"
    else .ok bars

/-- The fallback pipeline of `process_tick_data` from the loaded table to
the Renko brick values (lines 1243–1396, `mpf.plot` treated as the failing
external call so that the fallback branch runs, as the spec's §4.3 design
note adopts): returns the `renko_bricks` list and `original_rows`, or the
message of the `ValueError` raised.  The emptiness check of line 1366
raises `ValueError("No Renko data generated")`. -/
def processTickData (tb : TickTable) : Except String (List ℚ × ℕ) :=
  match resampleStage tb with
  | .error e => .error e
  | .ok bars =>
    let closes := bars.map Bar.close
    let bricks := fallbackRenko closes
    if bricks.length = 0 then .error "No Renko data generated"
    else .ok (bricks, tb.prices.length)

/-! ## Result cache

`renko_cache` (`src/intractive_app.py` line 44) is a dict keyed by
filename; `load_file` (lines 1443–1457) checks it before processing:

```python
if cache_key in renko_cache:
    cached_data = renko_cache[cache_key]
    cache_age = (datetime.now() - cached_data['timestamp']).total_seconds()
    if cache_age < 300:
        renko_df = cached_data['data']
        original_rows = cached_data['original_rows']
    else:
        renko_df, original_rows = process_tick_data(filename)
else:
    renko_df, original_rows = process_tick_data(filename)
```

and `process_tick_data` stores `\x7b'data': ..., 'timestamp': datetime.now(),
'original_rows': ..., 'file_path': ...\x7d` under the key (lines 1387–1394).
The computation is embedded as a deterministic function of the key (the
data files on disk are fixed during a request); time as a rational number
of seconds; one request as a transition `loadFileStep` on the cache state,
reporting whether the underlying computation ran. -/

/-- One cache entry: the computed data, the wall-clock second it was
stored, and the original row count (the `file_path` metadata field is not
claim-relevant and is omitted). -/
structure CacheEntry (α : Type) where
  data : α
  timestamp : ℚ
  originalRows : ℕ

/-- The cache: at most one entry per filename key. -/
def RenkoCache (α : Type) := String → Option (CacheEntry α)

/-- Plain dict assignment `renko_cache[cache_key] = entry`: overwrites any
prior entry under the key. -/
def cacheStore {α : Type} (cache : RenkoCache α) (key : String)
    (e : CacheEntry α) : RenkoCache α :=
  fun k => if k = key then some e else cache k

/-- Outcome of one `load_file` request: the `(renko_df, original_rows)`
pair served, the cache state afterwards, and whether `process_tick_data`
ran. -/
structure LoadOutcome (α : Type) where
  result : α × ℕ
  cache : RenkoCache α
  computed : Bool

/-- One `load_file` request at wall-clock time `now` (lines 1443–1457
together with the store at lines 1387–1394): a cached entry younger than
300 seconds is served as is; otherwise `process_tick_data` runs and its
result is stored under the key with the current time. -/
def loadFileStep {α : Type} (compute : String → α × ℕ) (cache : RenkoCache α)
    (key : String) (now : ℚ) : LoadOutcome α :=
  match cache key with
  | some e =>
    if now - e.timestamp < 300 then ⟨(e.data, e.originalRows), cache, false⟩
    else
      let r := compute key
      ⟨r, cacheStore cache key ⟨r.1, now, r.2⟩, true⟩
  | none =>
    let r := compute key
    ⟨r, cacheStore cache key ⟨r.1, now, r.2⟩, true⟩

/-- The amended walk of claim C1 as direct structural recursion: `last`
starts at the first close, the loop visits every bar (the first included),
and a bar whose close moved at least `brickSize` from `last` emits exactly
one brick at that raw close. -/
def renkoWalkDirect (brickSize : ℚ) (closes : List ℚ) : List ℚ :=
  match closes with
  | [] => []
  | c0 :: _ => walkAux brickSize c0 closes

/-! ## Helper lemmas about the builder loop -/

/-- Accumulator invariant of the fallback loop: the fold collects the
bricks of `walkAux` in reverse on top of the accumulator. -/
theorem foldl_renkoStep (s : ℚ) (l : List ℚ) : ∀ (last : ℚ) (acc : List ℚ),
    (l.foldl (renkoStep s) (last, acc)).2 = (walkAux s last l).reverse ++ acc := by
  induction l with
  | nil => intro last acc; simp [walkAux]
  | cons c rest ih =>
    intro last acc
    by_cases h : s ≤ |c - last|
    · simp [List.foldl_cons, renkoStep, h, walkAux, ih]
    · simp [List.foldl_cons, renkoStep, h, walkAux, ih]

/-- The fold form of the fallback loop equals its direct-recursion form. -/
theorem renkoWalk_eq_walkAux (s : ℚ) (closes : List ℚ) :
    renkoWalk s closes = renkoWalkDirect s closes := by
  cases closes with
  | nil => rfl
  | cons c0 rest =>
    simp only [renkoWalk, renkoWalkDirect]
    rw [foldl_renkoStep]
    simp

/-- Every brick the loop emits is the close of some input bar. -/
theorem walkAux_mem (s : ℚ) (l : List ℚ) : ∀ (last : ℚ) (v : ℚ),
    v ∈ walkAux s last l → v ∈ l := by
  induction l with
  | nil => intro last v hv; simp [walkAux] at hv
  | cons c rest ih =>
    intro last v hv
    by_cases h : s ≤ |c - last|
    · simp [walkAux, h] at hv
      rcases hv with hv | hv
      · simp [hv]
      · exact List.mem_cons_of_mem _ (ih c v hv)
    · simp [walkAux, h] at hv
      exact List.mem_cons_of_mem _ (ih last v hv)

/-- Each emitted brick moved at least `s` away from the previous emitted
brick (or from the initial `last_brick_price` for the first one). -/
theorem chain_walkAux (s : ℚ) (l : List ℚ) : ∀ (last : ℚ),
    List.Chain (fun a b => s ≤ |b - a|) last (walkAux s last l) := by
  induction l with
  | nil => intro last; exact List.Chain.nil
  | cons c rest ih =>
    intro last
    by_cases h : s ≤ |c - last|
    · simp only [walkAux, ge_iff_le, h, if_pos]
      exact List.Chain.cons h (ih c)
    · simp only [walkAux, ge_iff_le, h, if_neg, not_false_iff]
      exact ih last

/-- Consecutive bricks of the fallback builder differ by at least the
brick size. -/
theorem chain_renkoWalk (s : ℚ) (closes : List ℚ) :
    List.Chain' (fun a b => s ≤ |b - a|) (renkoWalk s closes) := by
  rw [renkoWalk_eq_walkAux]
  cases closes with
  | nil => simp [renkoWalkDirect]
  | cons c0 rest =>
    have h : List.Chain (fun a b => s ≤ |b - a|) c0 (walkAux s c0 (c0 :: rest)) :=
      chain_walkAux s (c0 :: rest) c0
    exact List.Chain'.tail (l := c0 :: walkAux s c0 (c0 :: rest)) h

/-- The squared comparison of the embedding agrees with the code's
`abs(price_change) >= brick_size` for every nonnegative brick size. -/
theorem renkoStepSq_sq (s : ℚ) (hs : 0 ≤ s) : renkoStepSq (s ^ 2) = renkoStep s := by
  funext st c
  have hiff : s ^ 2 ≤ (c - st.1) ^ 2 ↔ s ≤ |c - st.1| := by
    rw [sq_le_sq, abs_of_nonneg hs]
  simp only [renkoStepSq, renkoStep, ge_iff_le, hiff]

/-- The squared-comparison walk is the code's walk at brick size `s ≥ 0`:
this justifies settling claims about `std * 0.5` through `brickSizeSq`. -/
theorem renkoWalkSq_sq (s : ℚ) (hs : 0 ≤ s) (closes : List ℚ) :
    renkoWalkSq (s ^ 2) closes = renkoWalk s closes := by
  cases closes with
  | nil => rfl
  | cons c0 rest => simp only [renkoWalkSq, renkoWalk, renkoStepSq_sq s hs]

/-- With a nonpositive squared brick size every bar passes the threshold
test, so the fold keeps every close. -/
theorem foldl_renkoStepSq_nonpos (sSq : ℚ) (hs : sSq ≤ 0) (l : List ℚ) :
    ∀ (last : ℚ) (acc : List ℚ),
    (l.foldl (renkoStepSq sSq) (last, acc)).2 = l.reverse ++ acc := by
  induction l with
  | nil => intro last acc; simp
  | cons c rest ih =>
    intro last acc
    have h : sSq ≤ (c - last) ^ 2 := le_trans hs (sq_nonneg _)
    simp [List.foldl_cons, renkoStepSq, h, ih]

/-- With brick size zero (squared size zero) the builder emits one brick
per bar, reproducing the close series. -/
theorem renkoWalkSq_nonpos (sSq : ℚ) (hs : sSq ≤ 0) (closes : List ℚ) :
    renkoWalkSq sSq closes = closes := by
  cases closes with
  | nil => rfl
  | cons c0 rest =>
    simp only [renkoWalkSq]
    rw [foldl_renkoStepSq_nonpos sSq hs]
    simp

/-! ## Helper lemmas about the estimator on constant series -/

/-- The mean of a constant series is the constant. -/
theorem mean_replicate (n : ℕ) (c : ℚ) (hn : n ≠ 0) :
    mean (List.replicate n c) = c := by
  have hq : ((n : ℚ)) ≠ 0 := Nat.cast_ne_zero.2 hn
  simp [mean, List.sum_replicate, nsmul_eq_mul]
  rw [mul_comm, mul_div_assoc, div_self hq, mul_one]

/-- A constant series has zero squared deviation from its mean. -/
theorem sumSqDev_replicate (n : ℕ) (c : ℚ) :
    sumSqDev (List.replicate n c) = 0 := by
  cases n with
  | zero => simp [sumSqDev]
  | succ m =>
    simp [sumSqDev, List.map_replicate, mean_replicate _ c (Nat.succ_ne_zero m),
      sub_self, List.sum_replicate]

/-- The (squared) fallback brick size of a constant close series is zero. -/
theorem brickSizeSq_replicate (n : ℕ) (c : ℚ) :
    brickSizeSq (List.replicate n c) = 0 := by
  simp [brickSizeSq, sampleVar, sumSqDev_replicate, zero_div]

/-! ## Helper lemmas about the brick OHLC synthesis -/

/-- The `close` column of the interactive synthesis is the `renko_bricks`
column. -/
theorem synthFrom_map_close (l : List (ℚ × ℚ)) : ∀ (prev : ℚ),
    (synthFrom prev l).map RBrick.close = l.map Prod.fst := by
  induction l with
  | nil => intro prev; rfl
  | cons p rest ih =>
    intro prev
    cases p with
    | mk v s => simp [synthFrom, ih]

/-- The `open` column of the interactive synthesis is the `renko_bricks`
column shifted by one, headed by the seed `prev`. -/
theorem synthFrom_map_open (l : List (ℚ × ℚ)) : ∀ (prev : ℚ),
    (synthFrom prev l).map RBrick.openP = (prev :: l.map Prod.fst).dropLast := by
  induction l with
  | nil => intro prev; rfl
  | cons p rest ih =>
    intro prev
    cases p with
    | mk v s =>
      simp only [synthFrom, List.map_cons, ih v]
      rfl

/-- Row-local field equations of the interactive synthesis: padded
`high`/`low`, and `close` equal to the brick value. -/
theorem synthFrom_mem (l : List (ℚ × ℚ)) : ∀ (prev : ℚ) (b : RBrick),
    b ∈ synthFrom prev l →
      b.high = max b.openP b.value + b.size * (1 / 10) ∧
      b.low = min b.openP b.value - b.size * (1 / 10) ∧
      b.close = b.value := by
  induction l with
  | nil => intro prev b hb; simp [synthFrom] at hb
  | cons p rest ih =>
    intro prev b hb
    cases p with
    | mk v s =>
      simp only [synthFrom, List.mem_cons] at hb
      rcases hb with hb | hb
      · subst hb; exact ⟨rfl, rfl, rfl⟩
      · exact ih v b hb

/-- The `close` column of the `main.py` synthesis is the `renko_bricks`
column. -/
theorem mainSynthFrom_map_close (l : List (ℚ × ℚ)) : ∀ (prev : ℚ),
    (mainSynthFrom prev l).map RBrick.close = l.map Prod.fst := by
  induction l with
  | nil => intro prev; rfl
  | cons p rest ih =>
    intro prev
    cases p with
    | mk v s => simp [mainSynthFrom, ih]

/-- The `open` column of the `main.py` synthesis is the `renko_bricks`
column shifted by one, headed by the seed `prev`. -/
theorem mainSynthFrom_map_open (l : List (ℚ × ℚ)) : ∀ (prev : ℚ),
    (mainSynthFrom prev l).map RBrick.openP = (prev :: l.map Prod.fst).dropLast := by
  induction l with
  | nil => intro prev; rfl
  | cons p rest ih =>
    intro prev
    cases p with
    | mk v s =>
      simp only [mainSynthFrom, List.map_cons, ih v]
      rfl

/-- Row-local field equations of the `main.py` synthesis: unpadded
`high`/`low`, and `close` equal to the brick value. -/
theorem mainSynthFrom_mem (l : List (ℚ × ℚ)) : ∀ (prev : ℚ) (b : RBrick),
    b ∈ mainSynthFrom prev l →
      b.high = max b.openP b.value ∧
      b.low = min b.openP b.value ∧
      b.close = b.value := by
  induction l with
  | nil => intro prev b hb; simp [mainSynthFrom] at hb
  | cons p rest ih =>
    intro prev b hb
    cases p with
    | mk v s =>
      simp only [mainSynthFrom, List.mem_cons] at hb
      rcases hb with hb | hb
      · subst hb; exact ⟨rfl, rfl, rfl⟩
      · exact ih v b hb

/-- A per-adjacent-pair bound on the `(renko_bricks, renko_size)` rows
transports to the synthesized bricks: each non-first brick's recorded size
bounds the distance from its `open` to its `close`. -/
theorem chain_synthFrom (l : List (ℚ × ℚ))
    (hl : List.Chain' (fun p q => q.2 ≤ |q.1 - p.1|) l) : ∀ (prev : ℚ),
    List.Chain' (fun _ b => b.size ≤ |b.close - b.openP|) (synthFrom prev l) := by
  induction l with
  | nil => intro prev; simp [synthFrom]
  | cons p rest ih =>
    intro prev
    cases p with
    | mk v s =>
      cases rest with
      | nil => simp [synthFrom]
      | cons q rest2 =>
        cases q with
        | mk v2 s2 =>
          rw [List.chain'_cons] at hl
          simp only [synthFrom, List.chain'_cons]
          exact ⟨hl.1, ih hl.2 v⟩

/-- The accumulating resampler never produces an empty bar list: it always
flushes at least the bucket it is accumulating. -/
theorem resampleGo_ne_nil (l : List Tick) : ∀ (e : ℕ) (o h lo c : ℚ) (vol : ℕ),
    resampleGo e o h lo c vol l ≠ [] := by
  induction l with
  | nil => intro e o h lo c vol; simp [resampleGo]
  | cons t ts ih =>
    intro e o h lo c vol
    by_cases hb : bucketEnd t.time = e
    · simp only [resampleGo, hb, if_pos]
      exact ih _ _ _ _ _ _
    · simp [resampleGo, hb]

/-! ## Claim C1 -/

/-- Claim C1, counterexample.  The claim states that the Renko builder
follows the spec's quantized `while` loop.  On Scenario C's closes
`[100, 103, 107, 104, 101]` with brick size 3 the code's builder emits
`[103, 107, 104, 101]` (one brick per qualifying bar, at the raw bar
close), while the claimed walk emits `[103, 106, 103]` (several quantized
bricks per bar); the two are different, so the builder does not follow the
specified walk. -/
theorem claim1_counterexample :
    renkoWalk 3 [100, 103, 107, 104, 101] ≠ renkoSpecWalk 3 [100, 103, 107, 104, 101] := by
  have hcode : renkoWalk 3 [100, 103, 107, 104, 101] = [103, 107, 104, 101] := by
    norm_num [renkoWalk, renkoStep, List.foldl]
  have h1 : (⌈(3 : ℚ) / 3⌉ : ℤ) = 1 := by norm_num [Int.ceil_eq_iff]
  have h2 : (⌈(4 : ℚ) / 3⌉ : ℤ) = 2 := by norm_num [Int.ceil_eq_iff]
  have h3 : (⌈(2 : ℚ) / 3⌉ : ℤ) = 1 := by norm_num [Int.ceil_eq_iff]
  have h4 : (⌈(5 : ℚ) / 3⌉ : ℤ) = 2 := by norm_num [Int.ceil_eq_iff]
  have hspec : renkoSpecWalk 3 [100, 103, 107, 104, 101] = [103, 106, 103] := by
    norm_num [renkoSpecWalk, specWalkFrom, specWhileLoop, specFuel, h1, h2, h3, h4]
  rw [hcode, hspec]
  norm_num

/-- Claim C1, amended.  For every brick size and close series, the
builder's loop equals the direct recursion that starts `last_brick_value`
at the first close, visits every bar, and — when `|close - last| ≥
brick_size` — emits exactly one brick whose value is that bar's raw close
(updating `last_brick_value` to it); moreover every emitted brick value is
the close of some input bar, never a synthetic quantized level. -/
theorem claim1_theorem (s : ℚ) (closes : List ℚ) :
    renkoWalk s closes = renkoWalkDirect s closes ∧
    ∀ v ∈ renkoWalk s closes, v ∈ closes := by
  refine ⟨renkoWalk_eq_walkAux s closes, ?_⟩
  intro v hv
  rw [renkoWalk_eq_walkAux] at hv
  cases closes with
  | nil => simp [renkoWalkDirect] at hv
  | cons c0 rest => exact walkAux_mem s (c0 :: rest) c0 v hv

/-- Claim C1, witness: the amended theorem evaluated at brick size 3 and
closes `[100, 103]`, whose single emitted brick value 103 is a bar close. -/
theorem claim1_witness :
    renkoWalk 3 [100, 103] = renkoWalkDirect 3 [100, 103] ∧ (103 : ℚ) ∈ [(100 : ℚ), 103] := by
  have h := claim1_theorem 3 [100, 103]
  refine ⟨h.1, h.2 103 ?_⟩
  have hw : renkoWalk 3 [100, 103] = [103] := by norm_num [renkoWalk, renkoStep, List.foldl]
  rw [hw]
  simp

/-! ## Claim C2 -/

/-- Claim C2, counterexample.  The claim states the estimator returns
`0.5 × population std` of the closes.  The code computes
`pandas .std() * 0.5`, the *sample* standard deviation (`ddof = 1`).
Both values are nonnegative, so they are equal iff their squares are; on
closes `[0, 2]` the square of the code's value is `1/2` while the square
of the claimed value is `1/4`, so the estimator does not return
`0.5 × population std`. -/
theorem claim2_counterexample : brickSizeSq [0, 2] ≠ specBrickSizeSq [0, 2] := by
  norm_num [brickSizeSq, specBrickSizeSq, sampleVar, popVar, sumSqDev, mean]

/-- Claim C2, amended.  The estimator returns `0.5 ×` the *sample*
standard deviation (`ddof = 1`) of the closes: for every series of at
least two bars, the square of the returned brick size is `n / (n - 1)`
times the square of `0.5 ×` the population standard deviation. -/
theorem claim2_theorem (xs : List ℚ) (h : 2 ≤ xs.length) :
    brickSizeSq xs = ((xs.length : ℚ) / ((xs.length : ℚ) - 1)) * specBrickSizeSq xs := by
  have h2 : (2 : ℚ) ≤ (xs.length : ℚ) := by exact_mod_cast h
  have hn : ((xs.length : ℚ)) ≠ 0 := by intro hc; rw [hc] at h2; norm_num at h2
  have h1 : ((xs.length : ℚ)) - 1 ≠ 0 := by intro hc; nlinarith
  simp only [brickSizeSq, specBrickSizeSq, sampleVar, popVar]
  field_simp
  ring

/-- Claim C2, witness: the amended theorem evaluated on the two-element
close series `[0, 2]`. -/
theorem claim2_witness :
    2 ≤ ([(0 : ℚ), 2]).length ∧
    brickSizeSq [(0 : ℚ), 2] =
      ((([(0 : ℚ), 2]).length : ℚ) / ((([(0 : ℚ), 2]).length : ℚ) - 1)) *
        specBrickSizeSq [(0 : ℚ), 2] :=
  ⟨by norm_num, claim2_theorem [(0 : ℚ), 2] (by norm_num)⟩

/-! ## Claim C3 -/

/-- Claim C3, counterexample.  The claim states that on Scenario B's
constant series (20 bars at 50.0) the estimator fails with
`DegenerateSeries` and the caller substitutes a positive default.  The
code has no such failure path: the computed brick size is exactly 0 (its
square is 0), and the builder runs with it, emitting one brick per bar
(`|delta| = 0 ≥ 0`), so all 20 bars become bricks — no error is raised
and no positive default is substituted. -/
theorem claim3_counterexample :
    brickSizeSq (List.replicate 20 (50 : ℚ)) = 0 ∧
    fallbackRenko (List.replicate 20 (50 : ℚ)) = List.replicate 20 (50 : ℚ) := by
  refine ⟨brickSizeSq_replicate 20 50, ?_⟩
  unfold fallbackRenko
  rw [brickSizeSq_replicate]
  exact renkoWalkSq_nonpos 0 le_rfl _

/-- Claim C3, amended.  For every constant-price close series of at least
2 bars (the domain where pandas `std()` is defined), the statistical
estimator returns brick size 0 rather than failing, and the fallback
builder then emits one brick per bar, reproducing the close series. -/
theorem claim3_theorem (n : ℕ) (c : ℚ) (hn : 2 ≤ n) :
    brickSizeSq (List.replicate n c) = 0 ∧
    fallbackRenko (List.replicate n c) = List.replicate n c := by
  refine ⟨brickSizeSq_replicate n c, ?_⟩
  unfold fallbackRenko
  rw [brickSizeSq_replicate]
  exact renkoWalkSq_nonpos 0 le_rfl _

/-- Claim C3, witness: the amended theorem evaluated on 20 bars at price
75. -/
theorem claim3_witness :
    2 ≤ 20 ∧
    brickSizeSq (List.replicate 20 (75 : ℚ)) = 0 ∧
    fallbackRenko (List.replicate 20 (75 : ℚ)) = List.replicate 20 (75 : ℚ) :=
  ⟨by norm_num, claim3_theorem 20 75 (by norm_num)⟩

/-! ## Claim C4 -/

/-- Claim C4, counterexample.  The claim asserts
`high = max(open, value) + 0.1 × size` for every synthesized brick, citing
both `intractive_app.py` and `main.py`.  On the single brick
`(value, size) = (10, 2)` the `main.py` synthesis produces `high = 10`
(the bare `max(open, value)`), not the claimed `max(8, 10) + 0.2 = 10.2`:
`main.py` lines 121–122 apply no padding. -/
theorem claim4_counterexample :
    (mainSynthRenko [((10 : ℚ), 2)]).map RBrick.high ≠
      [max ((10 : ℚ) - 2) 10 + 2 * (1 / 10)] := by
  norm_num [mainSynthRenko, mainSynthFrom]

/-- Claim C4, amended.  In both synthesizers `close` equals the brick
value and `open` equals the previous brick's value (`value − size` for the
first brick).  The 10%-of-size padding of `high`/`low` holds in
`intractive_app.py`'s synthesis (`high = max(open, value) + 0.1 × size`,
`low = min(open, value) − 0.1 × size`); `main.py`'s `generate_renko_data`
instead sets `high = max(open, value)` and `low = min(open, value)` with
no padding. -/
theorem claim4_theorem (l : List (ℚ × ℚ)) (v s : ℚ) (rest : List (ℚ × ℚ)) :
    ((interactiveSynthRenko l).map RBrick.close = l.map Prod.fst) ∧
    ((interactiveSynthRenko ((v, s) :: rest)).map RBrick.openP =
      (v - s) :: (((v, s) :: rest).map Prod.fst).dropLast) ∧
    (∀ b ∈ interactiveSynthRenko l,
      b.high = max b.openP b.value + b.size * (1 / 10) ∧
      b.low = min b.openP b.value - b.size * (1 / 10) ∧
      b.close = b.value) ∧
    ((mainSynthRenko l).map RBrick.close = l.map Prod.fst) ∧
    ((mainSynthRenko ((v, s) :: rest)).map RBrick.openP =
      (v - s) :: (((v, s) :: rest).map Prod.fst).dropLast) ∧
    (∀ b ∈ mainSynthRenko l,
      b.high = max b.openP b.value ∧
      b.low = min b.openP b.value ∧
      b.close = b.value) := by
  refine ⟨?_, ?_, ?_, ?_, ?_, ?_⟩
  · cases l with
    | nil => rfl
    | cons p r =>
      cases p with
      | mk v0 s0 => simpa [interactiveSynthRenko] using synthFrom_map_close ((v0, s0) :: r) (v0 - s0)
  · simp only [interactiveSynthRenko]
    rw [synthFrom_map_open]
    simp [List.dropLast]
  · intro b hb
    cases l with
    | nil => simp [interactiveSynthRenko] at hb
    | cons p r =>
      cases p with
      | mk v0 s0 => exact synthFrom_mem ((v0, s0) :: r) (v0 - s0) b hb
  · cases l with
    | nil => rfl
    | cons p r =>
      cases p with
      | mk v0 s0 => simpa [mainSynthRenko] using mainSynthFrom_map_close ((v0, s0) :: r) (v0 - s0)
  · simp only [mainSynthRenko]
    rw [mainSynthFrom_map_open]
    simp [List.dropLast]
  · intro b hb
    cases l with
    | nil => simp [mainSynthRenko] at hb
    | cons p r =>
      cases p with
      | mk v0 s0 => exact mainSynthFrom_mem ((v0, s0) :: r) (v0 - s0) b hb

/-- Claim C4, witness: the amended theorem evaluated on the single brick
`(10, 2)`: its `close` column is `[10]`, its `open` column `[8]`, and the
padded `high` of the produced brick is `51/5 = 10.2`. -/
theorem claim4_witness :
    ((interactiveSynthRenko [((10 : ℚ), 2)]).map RBrick.close = [(10 : ℚ)]) ∧
    ((interactiveSynthRenko [((10 : ℚ), 2)]).map RBrick.openP = [(8 : ℚ)]) ∧
    ((RBrick.mk 10 2 8 (51 / 5) (39 / 5) 10).high =
      max (8 : ℚ) 10 + 2 * (1 / 10)) := by
  have h := claim4_theorem [((10 : ℚ), 2)] 10 2 []
  refine ⟨by simpa using h.1, ?_, ?_⟩
  · have h21 := h.2.1
    norm_num at h21
    exact h21
  · have hmem : RBrick.mk 10 2 8 (51 / 5) (39 / 5) 10 ∈ interactiveSynthRenko [((10 : ℚ), 2)] := by
      norm_num [interactiveSynthRenko, synthFrom, RBrick.mk.injEq]
    exact (h.2.2.1 _ hmem).1

/-! ## Claim C5 -/

/-- Claim C5, counterexample.  The claim asserts `|value - open| = size`
for every brick after the first.  On closes `[100, 103, 107]` with brick
size 3, the produced brick series has a second brick with `value = 107`,
`open = 103` and recorded `size = 3`, but `|107 - 103| = 4 ≠ 3`: bricks
form at raw bar closes, so the gap can exceed the brick size. -/
theorem claim5_counterexample :
    interactiveSynthRenko ((renkoWalk 3 [100, 103, 107]).map (fun v => (v, (3 : ℚ)))) =
      [⟨103, 3, 100, 1033 / 10, 997 / 10, 103⟩, ⟨107, 3, 103, 1073 / 10, 1027 / 10, 107⟩] ∧
    |(107 : ℚ) - 103| ≠ (3 : ℚ) := by
  constructor
  · norm_num [renkoWalk, renkoStep, List.foldl, interactiveSynthRenko, synthFrom,
      RBrick.mk.injEq]
  · norm_num

/-- Claim C5, amended.  For every brick after the first in the produced
brick series, `|value - open| ≥ size` (not `= size`): the walk emits a
brick only when the close moved at least `brick_size` away from the last
brick value, and `open` is the previous brick's value. -/
theorem claim5_theorem (s : ℚ) (closes : List ℚ) (i : ℕ)
    (h : i + 1 < (interactiveSynthRenko ((renkoWalk s closes).map (fun v => (v, s)))).length) :
    ((interactiveSynthRenko ((renkoWalk s closes).map (fun v => (v, s)))).get ⟨i + 1, h⟩).size ≤
      |((interactiveSynthRenko ((renkoWalk s closes).map (fun v => (v, s)))).get ⟨i + 1, h⟩).close -
        ((interactiveSynthRenko ((renkoWalk s closes).map (fun v => (v, s)))).get ⟨i + 1, h⟩).openP| := by
  have hpairs : List.Chain' (fun p q => q.2 ≤ |q.1 - p.1|)
      ((renkoWalk s closes).map (fun v => (v, s))) := by
    rw [List.chain'_map]
    exact chain_renkoWalk s closes
  have hbr : List.Chain' (fun _ b => b.size ≤ |b.close - b.openP|)
      (interactiveSynthRenko ((renkoWalk s closes).map (fun v => (v, s)))) := by
    cases hw : (renkoWalk s closes).map (fun v => (v, s)) with
    | nil => simp [interactiveSynthRenko]
    | cons p r =>
      cases p with
      | mk v0 s0 =>
        rw [hw] at hpairs
        simpa [interactiveSynthRenko] using chain_synthFrom ((v0, s0) :: r) hpairs (v0 - s0)
  exact List.chain'_iff_get.mp hbr i (by omega)

/-- Claim C5, witness: the amended theorem evaluated at brick size 3 and
closes `[100, 103, 107]`, at the brick after the first. -/
theorem claim5_witness :
    ((interactiveSynthRenko ((renkoWalk 3 [100, 103, 107]).map (fun v => (v, (3 : ℚ))))).get
        ⟨0 + 1, by norm_num [interactiveSynthRenko, synthFrom, renkoWalk, renkoStep, List.foldl]⟩).size ≤
      |((interactiveSynthRenko ((renkoWalk 3 [100, 103, 107]).map (fun v => (v, (3 : ℚ))))).get
        ⟨0 + 1, by norm_num [interactiveSynthRenko, synthFrom, renkoWalk, renkoStep, List.foldl]⟩).close -
       ((interactiveSynthRenko ((renkoWalk 3 [100, 103, 107]).map (fun v => (v, (3 : ℚ))))).get
        ⟨0 + 1, by norm_num [interactiveSynthRenko, synthFrom, renkoWalk, renkoStep, List.foldl]⟩).openP| :=
  claim5_theorem 3 [100, 103, 107] 0
    (by norm_num [interactiveSynthRenko, synthFrom, renkoWalk, renkoStep, List.foldl])

/-! ## Claim C6 -/

/-- Claim C6, confirmed.  For any key: a request finding a cached entry
younger than 300 seconds returns that entry's data without computing and
leaves the cache unchanged; a request finding no entry computes, stores
the result under the key with the request's timestamp, and returns it; a
second request within the TTL of that computation returns the identical
result without computing; and a request at or past the TTL recomputes and
overwrites the entry with a fresh timestamp. -/
theorem claim6_theorem (α : Type) (compute : String → α × ℕ)
    (cache cache2 : RenkoCache α) (key : String) (e : CacheEntry α) (t1 t2 t3 : ℚ)
    (hmiss : cache key = none) (hhit : cache2 key = some e)
    (hage : t1 - e.timestamp < 300) (h12 : t1 ≤ t2) (hTTL : t2 - t1 < 300)
    (hexp : 300 ≤ t3 - t1) :
    (loadFileStep compute cache2 key t1).result = (e.data, e.originalRows) ∧
    (loadFileStep compute cache2 key t1).cache = cache2 ∧
    (loadFileStep compute cache2 key t1).computed = false ∧
    (loadFileStep compute cache key t1).computed = true ∧
    (loadFileStep compute cache key t1).result = compute key ∧
    (loadFileStep compute cache key t1).cache key =
      some ⟨(compute key).1, t1, (compute key).2⟩ ∧
    (loadFileStep compute (loadFileStep compute cache key t1).cache key t2).computed = false ∧
    (loadFileStep compute (loadFileStep compute cache key t1).cache key t2).result =
      (loadFileStep compute cache key t1).result ∧
    (loadFileStep compute (loadFileStep compute cache key t1).cache key t2).cache =
      (loadFileStep compute cache key t1).cache ∧
    (loadFileStep compute (loadFileStep compute cache key t1).cache key t3).computed = true ∧
    (loadFileStep compute (loadFileStep compute cache key t1).cache key t3).cache key =
      some ⟨(compute key).1, t3, (compute key).2⟩ := by
  have h2 : t2 - t1 < 300 := hTTL
  have h3 : ¬ (t3 - t1 < 300) := by linarith
  simp [loadFileStep, hmiss, hhit, hage, cacheStore, h2, h3]

/-- Claim C6, witness: the theorem evaluated with a concrete deterministic
computation (`fun _ => (42, 7)`), an empty cache and a one-entry cache,
at request times 1, 2 and 500 seconds. -/
theorem claim6_witness :
    (loadFileStep (fun _ => ((42 : ℚ), 7)) (fun _ => some ⟨9, 0, 3⟩) "spy" 1).result =
      ((9 : ℚ), 3) ∧
    (loadFileStep (fun _ => ((42 : ℚ), 7)) (fun _ => some ⟨9, 0, 3⟩) "spy" 1).computed = false ∧
    (loadFileStep (fun _ => ((42 : ℚ), 7)) (fun _ => none) "spy" 1).computed = true ∧
    (loadFileStep (fun _ => ((42 : ℚ), 7)) (fun _ => none) "spy" 1).result = ((42 : ℚ), 7) ∧
    (loadFileStep (fun _ => ((42 : ℚ), 7))
      (loadFileStep (fun _ => ((42 : ℚ), 7)) (fun _ => none) "spy" 1).cache "spy" 2).computed =
      false ∧
    (loadFileStep (fun _ => ((42 : ℚ), 7))
      (loadFileStep (fun _ => ((42 : ℚ), 7)) (fun _ => none) "spy" 1).cache "spy" 2).result =
      (loadFileStep (fun _ => ((42 : ℚ), 7)) (fun _ => none) "spy" 1).result ∧
    (loadFileStep (fun _ => ((42 : ℚ), 7))
      (loadFileStep (fun _ => ((42 : ℚ), 7)) (fun _ => none) "spy" 1).cache "spy" 500).computed =
      true := by
  have h := claim6_theorem ℚ (fun _ => ((42 : ℚ), 7)) (fun _ => none)
    (fun _ => some ⟨9, 0, 3⟩) "spy" ⟨9, 0, 3⟩ 1 2 500 rfl rfl (by norm_num) (by norm_num)
    (by norm_num) (by norm_num)
  exact ⟨h.1, h.2.2.1, h.2.2.2.1, h.2.2.2.2.1, h.2.2.2.2.2.2.1, h.2.2.2.2.2.2.2.1,
    h.2.2.2.2.2.2.2.2.2.1⟩

/-! ## Claim C7 -/

/-- Claim C7, confirmed.  Bucketing is right-closed and right-labelled: a
tick at an exact minute boundary `60k` belongs to (and labels) the bucket
ending at `60k`; in general a tick at second `t` goes to the bucket
labelled by the least multiple of 60 at least `t` (so `t ≤ label < t +
60`).  Scenario A: ticks at `t = 0` (price 100) and `t = 61` (price 100.5)
produce exactly two bars — the first with open = high = low = close = 100,
the second with open (and all fields) 100.5, labelled 120. -/
theorem claim7_theorem :
    (∀ k : ℕ, bucketEnd (60 * k) = 60 * k) ∧
    (∀ t : ℕ, t ≤ bucketEnd t ∧ bucketEnd t < t + 60) ∧
    resample1min [⟨0, 100, 1⟩, ⟨61, 201 / 2, 1⟩] =
      [⟨0, 100, 100, 100, 100, 1⟩, ⟨120, 201 / 2, 201 / 2, 201 / 2, 201 / 2, 1⟩] := by
  refine ⟨?_, ?_, ?_⟩
  · intro k; unfold bucketEnd; omega
  · intro t; unfold bucketEnd; omega
  · norm_num [resample1min, resampleGo, bucketEnd]

/-! ## Claim C8 -/

/-- Claim C8, counterexample.  The claim states that for empty tick input
the pipeline does not raise.  Resampling the empty tick list does return
the empty bar list, but the pipeline then raises
`ValueError("No data remained after resampling to OHLC")`
(`src/intractive_app.py` lines 1289–1290), shown here on an empty table
that has `price` and `timestamp` columns. -/
theorem claim8_counterexample :
    resample1min [] = [] ∧
    processTickData ⟨["timestamp", "price"], none, [], [], []⟩ =
      .error "No data remained after resampling to OHLC" := by
  constructor
  · rfl
  · simp [processTickData, resampleStage, resolveTicks, resolvedCols, colsAfterReset,
      addMapped, tableTicks, tickTimes, tickSizes, resample1min, tsAltNames, priceAltNames,
      tsIndexNames]

/-- Claim C8, amended.  For every table with a resolvable price column and
no price rows, the resampling stage itself returns the empty output, and
the pipeline then raises `ValueError("No data remained after resampling to
OHLC")` instead of returning it. -/
theorem claim8_theorem (tb : TickTable)
    (hp : "price" ∈ resolvedCols tb) (h0 : tb.prices = []) :
    resample1min (tableTicks tb) = [] ∧
    processTickData tb = .error "No data remained after resampling to OHLC" := by
  have hticks : tableTicks tb = [] := by simp [tableTicks, h0]
  constructor
  · rw [hticks]; rfl
  · simp [processTickData, resampleStage, resolveTicks, hp, hticks, resample1min]

/-- Claim C8, witness: the amended theorem evaluated on an empty table
whose only column is `price`. -/
theorem claim8_witness :
    "price" ∈ resolvedCols ⟨["price"], some "foo", [], [], []⟩ ∧
    resample1min (tableTicks ⟨["price"], some "foo", [], [], []⟩) = [] ∧
    processTickData ⟨["price"], some "foo", [], [], []⟩ =
      .error "No data remained after resampling to OHLC" := by
  have hp : "price" ∈ resolvedCols ⟨["price"], some "foo", [], [], []⟩ := by
    simp [resolvedCols, colsAfterReset, addMapped, tsIndexNames, tsAltNames, priceAltNames]
  have h := claim8_theorem ⟨["price"], some "foo", [], [], []⟩ hp rfl
  exact ⟨hp, h.1, h.2⟩

/-! ## Claim C10 -/

/-- Claim C10, confirmed.  When the loaded table has no timestamp column
under any accepted name (`timestamp`, `date`, `time`, `datetime`, `ts`)
and its index is not named one of the accepted index names, processing
does not fail: the pipeline fabricates artificial timestamps spaced 1
second apart starting at 2025-01-01 for the rows, resolves the ticks with
them, and the resampling stage succeeds on them with a nonempty bar
output. -/
theorem claim10_theorem (tb : TickTable)
    (hp : "price" ∈ tb.cols)
    (hts : "timestamp" ∉ tb.cols) (hdate : "date" ∉ tb.cols) (htime : "time" ∉ tb.cols)
    (hdt : "datetime" ∉ tb.cols) (htsn : "ts" ∉ tb.cols)
    (hidx : ∀ nm, tb.indexName = some nm → nm ∉ tsIndexNames)
    (hn : tb.prices ≠ []) (hsz : tb.sizes.length = tb.prices.length) :
    tickTimes tb = (List.range tb.prices.length).map (fun i => artificialStart + i) ∧
    resolveTicks tb = .ok (tableTicks tb) ∧
    resampleStage tb = .ok (resample1min (tableTicks tb)) ∧
    resample1min (tableTicks tb) ≠ [] := by
  have hreset : colsAfterReset tb = tb.cols := by
    unfold colsAfterReset
    cases hi : tb.indexName with
    | none => simp
    | some nm =>
      have hnm : nm ∉ tsIndexNames := hidx nm hi
      simp [hts, hnm]
  have hcols : resolvedCols tb = tb.cols := by
    unfold resolvedCols
    rw [hreset]
    have h1 : addMapped tb.cols "price" priceAltNames = tb.cols := by
      simp [addMapped, hp]
    rw [h1]
    simp [addMapped, hts, hdate, htime, hdt, htsn, tsAltNames]
  have htt : tickTimes tb = (List.range tb.prices.length).map (fun i => artificialStart + i) := by
    simp [tickTimes, hcols, hts]
  have hlenS : (tickSizes tb).length = tb.prices.length := by
    unfold tickSizes
    split
    · exact hsz
    · simp
  have hlenT : (tableTicks tb).length = tb.prices.length := by
    simp [tableTicks, htt, hlenS]
  have hne : tableTicks tb ≠ [] := by
    intro hq
    apply hn
    have hlen := congrArg List.length hq
    rw [hlenT] at hlen
    simpa using List.eq_nil_of_length_eq_zero (by simpa using hlen)
  have hrs : resample1min (tableTicks tb) ≠ [] := by
    cases hc : tableTicks tb with
    | nil => exact absurd hc hne
    | cons t ts =>
      simp only [resample1min]
      exact resampleGo_ne_nil ts _ _ _ _ _ _
  refine ⟨htt, ?_, ?_, hrs⟩
  · simp [resolveTicks, hcols, hp]
  · simp [resampleStage, resolveTicks, hcols, hp, hrs]

/-- Claim C10, witness: the theorem evaluated on a two-row table whose
only column is `price` with no index name. -/
theorem claim10_witness :
    tickTimes ⟨["price"], none, [100, 101], [], [1, 1]⟩ =
      (List.range ([(100 : ℚ), 101]).length).map (fun i => artificialStart + i) ∧
    resolveTicks ⟨["price"], none, [100, 101], [], [1, 1]⟩ =
      .ok (tableTicks ⟨["price"], none, [100, 101], [], [1, 1]⟩) ∧
    resampleStage ⟨["price"], none, [100, 101], [], [1, 1]⟩ =
      .ok (resample1min (tableTicks ⟨["price"], none, [100, 101], [], [1, 1]⟩)) ∧
    resample1min (tableTicks ⟨["price"], none, [100, 101], [], [1, 1]⟩) ≠ [] := by
  have h := claim10_theorem ⟨["price"], none, [100, 101], [], [1, 1]⟩
    (by simp) (by simp) (by simp) (by simp) (by simp) (by simp)
    (by intro nm hnm; simp at hnm) (by simp) rfl
  exact h

end RenkoChart
